import Mathlib

/-!
Verification of the CLIProgress listener (`src/CLIProgress/CLIProgress.py`)
against its natural-language specification.

The Python classes `TraceStack`, `TestStatistics` and `TestTimings`, together
with the pure parts of the `CLIProgress` orchestrator, are shallowly embedded
below.  Python strings are modelled as Lean `String` (or `List Char` where the
proofs need character-level reasoning), Python `int` as `Int`, Python `float`
as `Rat`, and `None`-able values as `Option`.  Operations that can raise
(`list.pop()` on an empty list, indexing an empty list, formatting `None` with
an integer format spec) return `Option`, with `none` marking the raised
exception.
-/

/-- Model of `"  " * min(depth, 20)` (`TraceStack._indent`).  Python's string
repetition with a negative count yields the empty string, which `Int.toNat`
reproduces. -/
def indentFor (depth : Int) : String :=
  String.join (List.replicate (min depth 20).toNat "  ")

/-- State of `TraceStack`: the flushed trace text, the indent depth, the list
of pending (not yet flushed) keyword-header lines, and the warning/error
flags. -/
structure TraceStack where
  trace : String
  depth : Int
  stack : List String
  has_warnings : Bool
  has_errors : Bool
deriving Repr, DecidableEq

/-- The state `TraceStack.__init__` constructs. -/
def TraceStack.init : TraceStack :=
  { trace := "", depth := 0, stack := [], has_warnings := false, has_errors := false }

/-- `TraceStack.clear`: reset every field. -/
def TraceStack.clear (_ : TraceStack) : TraceStack := TraceStack.init

/-- `TraceStack.push_keyword`: append the indented header to the pending list
and increment the depth. -/
def TraceStack.push_keyword (t : TraceStack) (keyword_line : String) : TraceStack :=
  { t with stack := t.stack ++ [indentFor t.depth ++ keyword_line], depth := t.depth + 1 }

/-- `TraceStack.pop_keyword`: drop the most recently pushed pending header and
decrement the depth.  Python's `list.pop()` raises `IndexError` on an empty
list, modelled as `none`. -/
def TraceStack.pop_keyword (t : TraceStack) : Option TraceStack :=
  if t.stack.isEmpty then none
  else some { t with stack := t.stack.dropLast, depth := t.depth - 1 }

/-- `TraceStack.append_trace`: write one indented line directly to the flushed
trace. -/
def TraceStack.append_trace (t : TraceStack) (trace_line : String) : TraceStack :=
  { t with trace := t.trace ++ indentFor t.depth ++ trace_line ++ "\n" }

/-- `TraceStack.flush`: optionally decrement the depth, move every pending
header (each followed by a newline) to the trace, and clear the pending
list. -/
def TraceStack.flush (t : TraceStack) (decrement_depth : Bool) : TraceStack :=
  { t with
    depth := if decrement_depth then t.depth - 1 else t.depth,
    trace := t.trace ++ String.join (t.stack.map (fun line => line ++ "\n")),
    stack := [] }

/-- Fold a list of `push_keyword` calls over a stack state. -/
def pushAll (t : TraceStack) : List String → TraceStack
  | [] => t
  | h :: rest => pushAll (t.push_keyword h) rest

/-- The pending-header lines produced by pushing the given headers starting at
depth `d`: each header prefixed by the indent of its push-time depth. -/
def pendingLines (d : Int) : List String → List String
  | [] => []
  | h :: rest => (indentFor d ++ h) :: pendingLines (d + 1) rest

/-- The invariant claimed for `TraceStack`: the number of pending headers
equals the depth field. -/
def stackInv (t : TraceStack) : Prop :=
  (t.stack.length : Int) = t.depth

instance (t : TraceStack) : Decidable (stackInv t) := by
  unfold stackInv; infer_instance

theorem pushAll_spec (hs : List String) : ∀ t : TraceStack,
    (pushAll t hs).stack = t.stack ++ pendingLines t.depth hs ∧
    (pushAll t hs).depth = t.depth + hs.length ∧
    (pushAll t hs).trace = t.trace := by
  induction hs with
  | nil => intro t; simp [pushAll, pendingLines]
  | cons h rest ih =>
    intro t
    have := ih (t.push_keyword h)
    simp only [pushAll, pendingLines]
    refine ⟨?_, ?_, ?_⟩
    · rw [this.1]
      simp [TraceStack.push_keyword]
    · rw [this.2.1]
      simp [TraceStack.push_keyword]
      ring
    · rw [this.2.2]
      simp [TraceStack.push_keyword]

/-- C1 counterexample: from a cleared stack, pushing two headers and flushing
with `decrement_depth = true` leaves the depth at 1, not at its pre-push value
0, refuting the claim for sequences of more than one push. -/
theorem C1_counterexample :
    ¬ (((TraceStack.init.push_keyword "a").push_keyword "b").flush true).depth = 0 := by
  decide

/-- C1 (amended): for every sequence of pushes from a cleared stack followed by
one flush with `decrement_depth = true`, the flushed trace consists of exactly
the pushed headers, one per line, in push order, each prefixed with two spaces
per level of its push-time depth capped at 20; afterwards the pending list is
empty and the depth equals the number of pushes minus one (so it returns to
the pre-push value only when exactly one header was pushed). -/
theorem C1_push_flush_amended (hs : List String) :
    ((pushAll TraceStack.init hs).flush true).trace
      = String.join ((pendingLines 0 hs).map (fun line => line ++ "\n")) ∧
    ((pushAll TraceStack.init hs).flush true).depth = (hs.length : Int) - 1 ∧
    ((pushAll TraceStack.init hs).flush true).stack = [] := by
  obtain ⟨h1, h2, h3⟩ := pushAll_spec hs TraceStack.init
  simp only [TraceStack.flush]
  rw [h1, h2, h3]
  simp [TraceStack.init]

/-- C2 counterexample: from a cleared stack, pushing three headers and flushing
leaves an empty pending list but depth 2, so the invariant
`len(pending headers) == depth` is not re-established when the flush
completes. -/
theorem C2_counterexample :
    ¬ stackInv ((pushAll TraceStack.init ["x", "y", "z"]).flush true) := by
  decide

/-- C2 (amended): the invariant `len(pending headers) == depth` is established
by `clear` and preserved by `push_keyword`, `pop_keyword` and `append_trace`;
a `flush` always empties the pending list while decrementing the depth by at
most one, so it re-establishes the invariant exactly when the depth beforehand
was 1 (with `decrement_depth`) or 0 (without), and otherwise leaves it
violated. -/
theorem C2_invariant_amended :
    (∀ t : TraceStack, stackInv t.clear) ∧
    (∀ (t : TraceStack) (h : String), stackInv t → stackInv (t.push_keyword h)) ∧
    (∀ t t' : TraceStack, stackInv t → t.pop_keyword = some t' → stackInv t') ∧
    (∀ (t : TraceStack) (l : String), stackInv t → stackInv (t.append_trace l)) ∧
    (∀ (t : TraceStack) (b : Bool),
      (t.flush b).stack = [] ∧ (t.flush b).depth = t.depth - (if b then 1 else 0) ∧
      (stackInv (t.flush b) ↔ t.depth = (if b then 1 else 0))) := by
  refine ⟨?_, ?_, ?_, ?_, ?_⟩
  · intro t; simp [TraceStack.clear, TraceStack.init, stackInv]
  · intro t h hinv
    simp only [stackInv, TraceStack.push_keyword, List.length_append, List.length_cons,
      List.length_nil] at *
    push_cast
    omega
  · intro t t' hinv hpop
    simp only [TraceStack.pop_keyword] at hpop
    by_cases hemp : t.stack.isEmpty
    · simp [hemp] at hpop
    · simp only [hemp, Bool.false_eq_true, if_false, Option.some.injEq] at hpop
      have hlen : t.stack.length ≠ 0 := by
        simpa [List.isEmpty_iff_length_eq_zero] using hemp
      subst hpop
      simp only [stackInv, List.length_dropLast] at *
      push_cast [Nat.cast_sub (Nat.one_le_iff_ne_zero.mpr hlen)]
      omega
  · intro t l hinv
    simpa [stackInv, TraceStack.append_trace] using hinv
  · intro t b
    refine ⟨rfl, ?_, ?_⟩
    · cases b <;> simp [TraceStack.flush]
    · cases b <;> simp [TraceStack.flush, stackInv] <;> omega

/-- C2 witness: the invariant holds for one concrete push, and the flush of
that one-deep stack re-establishes it (depth beforehand is 1). -/
theorem C2_witness :
    stackInv (TraceStack.init.push_keyword "a") ∧
    (stackInv ((TraceStack.init.push_keyword "a").flush true) ↔
      (TraceStack.init.push_keyword "a").depth = (if true then 1 else 0)) :=
  ⟨C2_invariant_amended.2.1 TraceStack.init "a" (by decide),
   (C2_invariant_amended.2.2.2.2 (TraceStack.init.push_keyword "a") true).2.2⟩

/-- The trace-stack operations the orchestrator performs per lifecycle event:
`clear` on suite/test start, `push_keyword` on keyword start, `pop_keyword` on
a NOT RUN keyword end, `flush true` (then a status line) on a completed
keyword end, and `flush false` (then the message) on a log message. -/
inductive StackEvent where
  | clearStacks : StackEvent
  | keywordStart : String → StackEvent
  | keywordEndNotRun : StackEvent
  | keywordEndRun : String → StackEvent
  | logMessage : String → StackEvent
deriving Repr, DecidableEq

/-- Effect of one orchestrator event on the active trace stack, following
`start_suite`/`start_test`, `start_keyword`, `end_keyword` and `log_message`.
`none` marks the `IndexError` a pop of an empty pending list would raise. -/
def stepEvent (t : TraceStack) : StackEvent → Option TraceStack
  | .clearStacks => some t.clear
  | .keywordStart line => some (t.push_keyword line)
  | .keywordEndNotRun => t.pop_keyword
  | .keywordEndRun summary => some ((t.flush true).append_trace summary)
  | .logMessage line => some ((t.flush false).append_trace line)

/-- Run a sequence of orchestrator events over a trace stack, stopping at the
first failing operation. -/
def runEvents (t : TraceStack) : List StackEvent → Option TraceStack
  | [] => some t
  | e :: es =>
    match stepEvent t e with
    | none => none
    | some t2 => runEvents t2 es

/-- Depth after one event: clears reset it to 0, keyword starts add one,
keyword ends of either kind subtract one, log messages leave it unchanged. -/
def nextDepth (d : Int) : StackEvent → Int
  | .clearStacks => 0
  | .keywordStart _ => d + 1
  | .keywordEndNotRun => d - 1
  | .keywordEndRun _ => d - 1
  | .logMessage _ => d

/-- Well-nestedness of an event sequence starting at depth `d`, as guaranteed
by the host engine: at no point have more keyword-end events been seen than
keyword-start events since the last clear. -/
def okEvents (d : Int) : List StackEvent → Bool
  | [] => true
  | e :: es => decide (0 ≤ nextDepth d e) && okEvents (nextDepth d e) es

theorem stepEvent_depth (t t2 : TraceStack) (e : StackEvent)
    (h : stepEvent t e = some t2) : t2.depth = nextDepth t.depth e := by
  cases e with
  | clearStacks =>
    simp only [stepEvent, Option.some.injEq] at h
    subst h; rfl
  | keywordStart line =>
    simp only [stepEvent, Option.some.injEq] at h
    subst h; rfl
  | keywordEndNotRun =>
    simp only [stepEvent, TraceStack.pop_keyword] at h
    by_cases hemp : t.stack.isEmpty
    · simp [hemp] at h
    · simp only [hemp, Bool.false_eq_true, if_false, Option.some.injEq] at h
      subst h; rfl
  | keywordEndRun summary =>
    simp only [stepEvent, Option.some.injEq] at h
    subst h; rfl
  | logMessage line =>
    simp only [stepEvent, Option.some.injEq] at h
    subst h; rfl

theorem runEvents_depth_nonneg (es : List StackEvent) : ∀ t t2 : TraceStack,
    0 ≤ t.depth → okEvents t.depth es = true →
    runEvents t es = some t2 → 0 ≤ t2.depth := by
  induction es with
  | nil =>
    intro t t2 h0 _ hrun
    simp only [runEvents, Option.some.injEq] at hrun
    subst hrun; exact h0
  | cons e rest ih =>
    intro t t2 h0 hok hrun
    simp only [okEvents, Bool.and_eq_true, decide_eq_true_eq] at hok
    simp only [runEvents] at hrun
    cases hstep : stepEvent t e with
    | none => rw [hstep] at hrun; exact absurd hrun (by simp)
    | some t1 =>
      rw [hstep] at hrun
      have hd := stepEvent_depth t t1 e hstep
      exact ih t1 t2 (hd ▸ hok.1) (hd ▸ hok.2) hrun

/-- C8: for every well-nested event sequence (each keyword-end preceded by a
matching keyword-start since the last clear, as the host engine guarantees),
every trace-stack state the orchestrator's operations reach from a cleared
stack has a non-negative depth. -/
theorem C8_depth_nonneg (es : List StackEvent) (t2 : TraceStack)
    (hok : okEvents 0 es = true) (hrun : runEvents TraceStack.init es = some t2) :
    0 ≤ t2.depth :=
  runEvents_depth_nonneg es TraceStack.init t2 (by decide) hok hrun

/-- C8 witness: a concrete well-nested sequence — start keyword `a`, start a
nested keyword `b`, discard `b` as NOT RUN, complete `a` — runs successfully
and ends with non-negative depth. -/
theorem C8_depth_nonneg_witness :
    okEvents 0 [StackEvent.keywordStart "a", StackEvent.keywordStart "b",
      StackEvent.keywordEndNotRun, StackEvent.keywordEndRun "pass"] = true ∧
    0 ≤ (TraceStack.mk "a\npass\n" 0 [] false false).depth :=
  ⟨by decide,
   C8_depth_nonneg [StackEvent.keywordStart "a", StackEvent.keywordStart "b",
      StackEvent.keywordEndNotRun, StackEvent.keywordEndRun "pass"]
     (TraceStack.mk "a\npass\n" 0 [] false false) (by decide) (by decide)⟩

/-- State of `TestStatistics`.  The two `top_level` counts are `int | None` in
the source, `None` until the first suite-start latches them. -/
structure TestStatistics where
  top_level_suite_count : Option Nat
  top_level_test_count : Option Nat
  started_suites : Nat
  started_tests : Nat
  passed_tests : Nat
  skipped_tests : Nat
  failed_tests : Nat
  completed_tests : Nat
  warnings : Nat
  errors : Nat
deriving Repr, DecidableEq

/-- The state `TestStatistics.__init__` constructs. -/
def TestStatistics.init : TestStatistics :=
  { top_level_suite_count := none, top_level_test_count := none, started_suites := 0,
    started_tests := 0, passed_tests := 0, skipped_tests := 0, failed_tests := 0,
    completed_tests := 0, warnings := 0, errors := 0 }

/-- `TestStatistics.start_suite`: bump the started-suite count and, on the
first call only, latch the top-level counts; `len(suite.suites) or 1` maps a
childless suite to 1. -/
def TestStatistics.start_suite (s : TestStatistics)
    (child_suite_count test_count : Nat) : TestStatistics :=
  { s with
    started_suites := s.started_suites + 1,
    top_level_suite_count :=
      match s.top_level_suite_count with
      | none => some (if child_suite_count = 0 then 1 else child_suite_count)
      | some c => some c,
    top_level_test_count :=
      match s.top_level_test_count with
      | none => some test_count
      | some c => some c }

/-- `TestStatistics.start_test`: bump the started-test count. -/
def TestStatistics.start_test (s : TestStatistics) : TestStatistics :=
  { s with started_tests := s.started_tests + 1 }

/-- The fields of a Robot `result` object that the statistics consume. -/
structure RunResult where
  not_run : Bool
  status : String
deriving Repr, DecidableEq

/-- `TestStatistics.end_test`: a not-run result is a no-op; otherwise bump the
completed count and the counter matching the status, if any. -/
def TestStatistics.end_test (s : TestStatistics) (result : RunResult) : TestStatistics :=
  if result.not_run then s
  else
    let s1 := { s with completed_tests := s.completed_tests + 1 }
    if result.status = "PASS" then { s1 with passed_tests := s1.passed_tests + 1 }
    else if result.status = "FAIL" then { s1 with failed_tests := s1.failed_tests + 1 }
    else if result.status = "SKIP" then { s1 with skipped_tests := s1.skipped_tests + 1 }
    else s1

/-- C9: `end_test` with a not-run result changes nothing; for a result that
ran it bumps `completed_tests` by exactly one, bumps exactly the counter
selected by a `PASS`/`FAIL`/`SKIP` status (none of the three for any other
status), and leaves every remaining counter unchanged. -/
theorem C9_end_test_counters (s : TestStatistics) (r : RunResult) :
    (s.end_test r).completed_tests
      = s.completed_tests + (if r.not_run then 0 else 1) ∧
    (s.end_test r).passed_tests
      = s.passed_tests + (if ¬r.not_run ∧ r.status = "PASS" then 1 else 0) ∧
    (s.end_test r).failed_tests
      = s.failed_tests + (if ¬r.not_run ∧ r.status = "FAIL" then 1 else 0) ∧
    (s.end_test r).skipped_tests
      = s.skipped_tests + (if ¬r.not_run ∧ r.status = "SKIP" then 1 else 0) ∧
    (s.end_test r).started_suites = s.started_suites ∧
    (s.end_test r).started_tests = s.started_tests ∧
    (s.end_test r).warnings = s.warnings ∧
    (s.end_test r).errors = s.errors ∧
    (s.end_test r).top_level_suite_count = s.top_level_suite_count ∧
    (s.end_test r).top_level_test_count = s.top_level_test_count := by
  cases hnr : r.not_run <;>
    simp only [TestStatistics.end_test, hnr, Bool.false_eq_true, Bool.true_eq_false,
      if_false, if_true, not_false_iff, not_true, false_and, true_and, if_neg,
      reduceIte] <;>
  · by_cases hp : r.status = "PASS" <;> by_cases hf : r.status = "FAIL" <;>
      by_cases hs : r.status = "SKIP" <;>
      simp_all

/-- Python's `round` to an integer: nearest integer, ties to even. -/
def pythonRound (q : Rat) : Int :=
  let f := q.floor
  let r := q - f
  if r < 1 / 2 then f
  else if 1 / 2 < r then f + 1
  else if f % 2 = 0 then f else f + 1

/-- Python's `f"{n:2d}"`: decimal rendering right-aligned in a field of width
two, space-padded. -/
def pyFormat2d (n : Int) : String :=
  let s := toString n
  if s.length < 2 then " " ++ s else s

/-- The body of `TestTimings.format_time` after the `int(round(seconds))`
conversion: `divmod` by 60 twice (Python's floor division and modulo, i.e.
`Int.fdiv`/`Int.fmod`) and truthiness tests on the hour and minute parts. -/
def formatTimeInt (seconds : Int) : String :=
  let m := seconds.fdiv 60
  let s := seconds.fmod 60
  let h := m.fdiv 60
  let m2 := m.fmod 60
  if h ≠ 0 then pyFormat2d h ++ "h " ++ pyFormat2d m2 ++ "m " ++ pyFormat2d s ++ "s"
  else if m2 ≠ 0 then pyFormat2d m2 ++ "m " ++ pyFormat2d s ++ "s"
  else pyFormat2d s ++ "s"

/-- `TestTimings.format_time`: `None` renders as `"unknown"`; any numeric
input is rounded to the nearest second and decomposed. -/
def formatTime : Option Rat → String
  | none => "unknown"
  | some seconds => formatTimeInt (pythonRound seconds)

/-- `TestTimings.format_eta`: when the completed count and the latched total
are both truthy (non-`None` and non-zero), render
`(elapsed / completed) * (total - completed)`; otherwise `"unknown"`. -/
def formatEta (elapsed : Rat) (stats : TestStatistics) : String :=
  match stats.top_level_test_count with
  | none => "unknown"
  | some total =>
    if stats.completed_tests ≠ 0 ∧ total ≠ 0 then
      formatTime (some ((elapsed / stats.completed_tests) * ((total : Rat) - stats.completed_tests)))
    else "unknown"

theorem pythonRound_intCast (n : Int) : pythonRound (n : Rat) = n := by
  simp [pythonRound, Rat.floor_def', Rat.num_intCast, Rat.den_intCast]

theorem fdiv_natCast (a b : Nat) :
    ((a : Int)).fdiv ((b : Int)) = ((a / b : Nat) : Int) :=
  (Int.ofNat_fdiv a b).symm

theorem fmod_natCast : ∀ a b : Nat,
    ((a : Int)).fmod ((b : Int)) = ((a % b : Nat) : Int)
  | 0, _ => by simp [Int.fmod]
  | Nat.succ _, _ => rfl

theorem formatTimeInt_natCast (n : Nat) : formatTimeInt ((n : Int)) =
    (if 3600 ≤ n then
      pyFormat2d ((n / 3600 : Nat) : Int) ++ "h " ++ pyFormat2d ((n / 60 % 60 : Nat) : Int)
        ++ "m " ++ pyFormat2d ((n % 60 : Nat) : Int) ++ "s"
    else if 60 ≤ n then
      pyFormat2d ((n / 60 : Nat) : Int) ++ "m " ++ pyFormat2d ((n % 60 : Nat) : Int) ++ "s"
    else pyFormat2d ((n : Nat) : Int) ++ "s") := by
  unfold formatTimeInt
  simp only [show (60 : Int) = ((60 : Nat) : Int) from rfl, fdiv_natCast, fmod_natCast, ne_eq]
  by_cases h1 : 3600 ≤ n
  · rw [if_pos (show ¬ ((n / 60 / 60 : Nat) : Int) = 0 by omega), if_pos h1]
    have e1 : n / 60 / 60 = n / 3600 := by omega
    rw [e1]
  · rw [if_neg (show ¬ ¬ ((n / 60 / 60 : Nat) : Int) = 0 by omega), if_neg h1]
    by_cases h2 : 60 ≤ n
    · rw [if_pos (show ¬ ((n / 60 % 60 : Nat) : Int) = 0 by omega), if_pos h2]
      have e2 : n / 60 % 60 = n / 60 := by omega
      rw [e2]
    · rw [if_neg (show ¬ ¬ ((n / 60 % 60 : Nat) : Int) = 0 by omega), if_neg h2]
      have e3 : n % 60 = n := by omega
      rw [e3]

/-- C3 counterexample: `format_time(0)` is `" 0s"` (the `:2d` field pads the
single digit with a leading space), not `"0s"` as the claim states. -/
theorem C3_counterexample : ¬ formatTime (some 0) = "0s" := by
  rw [show ((0 : Rat)) = ((0 : Int) : Rat) by norm_num]
  simp only [formatTime, pythonRound_intCast]
  decide

/-- C3 (amended): `format_time` maps its input, rounded to the nearest second,
to hours/minutes/seconds text omitting leading zero units, every printed unit
being right-aligned in a two-character field; in particular input 0 renders as
`" 0s"` (with a leading pad space), 45 as `"45s"`, 125 as `" 2m  5s"`, and
3665 as `" 1h  1m  5s"`.  The final conjunct states the general decomposition
for every whole number of seconds. -/
theorem C3_format_time_amended :
    formatTime (some 0) = " 0s" ∧
    formatTime (some 45) = "45s" ∧
    formatTime (some 125) = " 2m  5s" ∧
    formatTime (some 3665) = " 1h  1m  5s" ∧
    ∀ n : Nat, formatTime (some (n : Rat)) =
      (if 3600 ≤ n then
        pyFormat2d ((n / 3600 : Nat) : Int) ++ "h " ++ pyFormat2d ((n / 60 % 60 : Nat) : Int)
          ++ "m " ++ pyFormat2d ((n % 60 : Nat) : Int) ++ "s"
      else if 60 ≤ n then
        pyFormat2d ((n / 60 : Nat) : Int) ++ "m " ++ pyFormat2d ((n % 60 : Nat) : Int) ++ "s"
      else pyFormat2d ((n : Nat) : Int) ++ "s") := by
  refine ⟨?_, ?_, ?_, ?_, ?_⟩
  · rw [show ((0 : Rat)) = ((0 : Int) : Rat) by norm_num]
    simp only [formatTime, pythonRound_intCast]
    decide
  · rw [show ((45 : Rat)) = ((45 : Int) : Rat) by norm_num]
    simp only [formatTime, pythonRound_intCast]
    decide
  · rw [show ((125 : Rat)) = ((125 : Int) : Rat) by norm_num]
    simp only [formatTime, pythonRound_intCast]
    decide
  · rw [show ((3665 : Rat)) = ((3665 : Int) : Rat) by norm_num]
    simp only [formatTime, pythonRound_intCast]
    decide
  · intro n
    rw [show ((n : Nat) : Rat) = (((n : Int)) : Rat) by push_cast; ring]
    simp only [formatTime, pythonRound_intCast]
    exact formatTimeInt_natCast n

/-- C7 counterexample: with 5 completed items and a latched total of 0 (a
known total), the code returns `"unknown"` because Python's truthiness test
`stats.top_level_test_count` treats 0 like `None`, while the claim prescribes
the time rendering of `(elapsed / completed) * (total - completed)`, which is
never `"unknown"`. -/
theorem C7_counterexample :
    formatEta 20 { TestStatistics.init with
      completed_tests := 5, top_level_test_count := some 0 } = "unknown" ∧
    ¬ formatTime (some (((20 : Rat) / ((5 : Nat) : Rat))
        * (((0 : Nat) : Rat) - ((5 : Nat) : Rat)))) = "unknown" := by
  constructor
  · simp [formatEta]
  · rw [show (((20 : Rat) / ((5 : Nat) : Rat)) * (((0 : Nat) : Rat) - ((5 : Nat) : Rat)))
        = ((-20 : Int) : Rat) by push_cast; norm_num]
    simp only [formatTime, pythonRound_intCast]
    decide

/-- C7 (amended): `format_eta` returns `"unknown"` whenever no item has
completed, no total has been latched, or the latched total is zero; otherwise
it returns the time rendering of `(elapsed / completed) * (total - completed)`;
in particular with 5 completed items, 20 elapsed seconds and 15 total items
the ETA for the remaining 10 items renders as `"40s"`. -/
theorem C7_format_eta_amended :
    (∀ (e : Rat) (s : TestStatistics),
      (s.completed_tests = 0 ∨ s.top_level_test_count = none ∨
        s.top_level_test_count = some 0) →
      formatEta e s = "unknown") ∧
    (∀ (e : Rat) (s : TestStatistics) (t : Nat),
      s.top_level_test_count = some t → s.completed_tests ≠ 0 → t ≠ 0 →
      formatEta e s
        = formatTime (some ((e / (s.completed_tests : Rat))
            * ((t : Rat) - (s.completed_tests : Rat))))) ∧
    formatEta 20 { TestStatistics.init with
      completed_tests := 5, top_level_test_count := some 15 } = "40s" := by
  refine ⟨?_, ?_, ?_⟩
  · intro e s h
    rcases h with h | h | h
    · cases htot : s.top_level_test_count with
      | none => simp [formatEta, htot]
      | some t => simp [formatEta, htot, h]
    · simp [formatEta, h]
    · simp [formatEta, h]
  · intro e s t ht hc htz
    simp [formatEta, ht, hc, htz]
  · simp only [formatEta]
    norm_num
    rw [show ((40 : Rat)) = ((40 : Int) : Rat) by norm_num]
    simp only [formatTime, pythonRound_intCast]
    decide

/-- C7 witness: the formula conjunct applied to the concrete statistics of the
claim (5 completed of 15 total, 20 seconds elapsed) and the unknown conjunct
applied to fresh statistics. -/
theorem C7_format_eta_witness :
    formatEta 20 { TestStatistics.init with
      completed_tests := 5, top_level_test_count := some 15 }
      = formatTime (some (((20 : Rat) / ((5 : Nat) : Rat))
          * (((15 : Nat) : Rat) - ((5 : Nat) : Rat)))) ∧
    formatEta 20 TestStatistics.init = "unknown" :=
  ⟨C7_format_eta_amended.2.1 20 _ 15 rfl (by decide) (by decide),
   C7_format_eta_amended.1 20 TestStatistics.init (Or.inl rfl)⟩

/-- `TestStatistics.format_test_progress`: Python renders
`f"{started:2d}/{total:2d}"`; applying the `:2d` integer format to a `None`
total raises `TypeError`, modelled as `none`. -/
def TestStatistics.format_test_progress (s : TestStatistics) : Option String :=
  match s.top_level_test_count with
  | none => none
  | some total =>
    some (pyFormat2d (s.started_tests : Int) ++ "/" ++ pyFormat2d (total : Int))

/-- The pure effect of `CLIProgress.start_test`: bump the statistics, clear
the test trace stack, and build the left and right texts of box line 1.  The
left text interpolates `format_test_progress`, so the whole call raises when
no suite-start has latched the test count (`none`). -/
def startTestStep (stats : TestStatistics) (stack : TraceStack) (test_name : String)
    (elapsed : Rat) : Option (TestStatistics × TraceStack × String × String) :=
  let stats1 := stats.start_test
  let stack1 := stack.clear
  match stats1.format_test_progress with
  | none => none
  | some p =>
    some (stats1, stack1, "[TEST " ++ p ++ "] " ++ test_name,
      "(elapsed " ++ formatTime (some elapsed) ++ ", ETA " ++ formatEta elapsed stats1 ++ ")")

/-- C10: a `start_test` before any `start_suite` has latched the top-level
test count formats a `None` total with an integer format spec and raises
(`none`); after any `start_suite` call the latched count makes every
`start_test` complete. -/
theorem C10_start_test_requires_suite :
    (∀ (stats : TestStatistics) (stack : TraceStack) (name : String) (e : Rat),
      stats.top_level_test_count = none →
      startTestStep stats stack name e = none) ∧
    (∀ (stats : TestStatistics) (stack : TraceStack) (name : String) (e : Rat)
      (sc tc : Nat),
      (startTestStep (stats.start_suite sc tc) stack name e).isSome = true) := by
  constructor
  · intro stats stack name e h
    simp [startTestStep, TestStatistics.start_test, TestStatistics.format_test_progress, h]
  · intro stats stack name e sc tc
    cases h : stats.top_level_test_count <;>
      simp [startTestStep, TestStatistics.start_test, TestStatistics.start_suite,
        TestStatistics.format_test_progress, h]

/-- C10 witness: on freshly initialised statistics (no suite started, latched
count still `None`), a test-start fails. -/
theorem C10_witness :
    TestStatistics.init.top_level_test_count = none ∧
    startTestStep TestStatistics.init TraceStack.init "My Test" 0 = none :=
  ⟨rfl, C10_start_test_requires_suite.1 TestStatistics.init TraceStack.init "My Test" 0 rfl⟩

/-- Python's `str.splitlines` over the line boundaries `\n`, `\r` and `\r\n`
(the boundaries that occur in Robot log messages): split into lines, without a
trailing empty line for a trailing break, and the empty string giving an empty
list. -/
def splitlinesAux : List Char → List Char → List (List Char)
  | [], acc => if acc.isEmpty then [] else [acc]
  | '\r' :: '\n' :: rest, acc => acc :: splitlinesAux rest []
  | '\n' :: rest, acc => acc :: splitlinesAux rest []
  | '\r' :: rest, acc => acc :: splitlinesAux rest []
  | c :: rest, acc => splitlinesAux rest (acc ++ [c])

/-- `text.splitlines()` on a Lean string. -/
def pySplitlines (s : String) : List String :=
  (splitlinesAux s.data []).map (fun cs => String.mk cs)

theorem splitlinesAux_ne_nil : ∀ (cs acc : List Char),
    (¬ cs = [] ∨ ¬ acc = []) → ¬ splitlinesAux cs acc = [] := by
  intro cs acc
  induction cs, acc using splitlinesAux.induct <;> intro h <;>
    simp_all [splitlinesAux]

theorem pySplitlines_ne_nil (s : String) (h : ¬ s = "") : ¬ pySplitlines s = [] := by
  have hd : ¬ s.data = [] := by
    intro hdata
    exact h (by cases s with | mk data => simp at hdata; simp [hdata])
  simp only [pySplitlines, List.map_eq_nil_iff]
  exact splitlinesAux_ne_nil s.data [] (Or.inl hd)

/-- Python's `x or default` for an optional string field: `None` and the empty
string both fall back to the default. -/
def pyOrStr : Option String → String → String
  | none, d => d
  | some s, d => if s = "" then d else s

/-- The `ANSI.RESET` code appended by `_ANSICode.__call__`. -/
def ansiReset : String := "\x1b[0m"

/-- The foreground color code `log_message` selects for each level, `none`
when the level has no color branch. -/
def logLevelColor (level : String) : Option String :=
  if level = "ERROR" then some "\x1b[91m"
  else if level = "FAIL" then some "\x1b[91m"
  else if level = "WARN" then some "\x1b[93m"
  else if level = "SKIP" then some "\x1b[33m"
  else if level = "INFO" then some "\x1b[90m"
  else if level = "DEBUG" ∨ level = "TRACE" then some "\x1b[37m"
  else none

/-- When colors are enabled, wrap each formatted line in the level's color
code and a reset; otherwise leave the lines unchanged. -/
def colorLines (colors : Bool) (level : String) (lines : List String) : List String :=
  if colors then
    match logLevelColor level with
    | some code => lines.map (fun line => code ++ line ++ ansiReset)
    | none => lines
  else lines

/-- `CLIProgress.log_message` on the active stack: default the missing level
and message fields, flush pending headers without touching the depth, prefix
the first line with the upper-cased level initial and indent the continuation
lines, color them, bump the error/warning statistics and flags for
ERROR/WARN, and append the joined lines to the trace.  Indexing
`text.splitlines()[0]` raises `IndexError` when the (defaulted) message text
is empty, because `"".splitlines()` is the empty list; that exception is the
`none` branch. -/
def logMessageStep (colors : Bool) (stats : TestStatistics) (stack : TraceStack)
    (level? text? : Option String) : Option (TestStatistics × TraceStack) :=
  let level := pyOrStr level? "UNKNOWN"
  let text := pyOrStr text? ""
  let stack1 := stack.flush false
  match pySplitlines text with
  | [] => none
  | l0 :: rest =>
    let lines := (String.singleton level.front.toUpper ++ " " ++ l0)
      :: rest.map (fun line => "  " ++ line)
    let lines2 := colorLines colors level lines
    let stats2 :=
      if level = "ERROR" then { stats with errors := stats.errors + 1 }
      else if level = "WARN" then { stats with warnings := stats.warnings + 1 }
      else stats
    let stack2 :=
      if level = "ERROR" then { stack1 with has_errors := true }
      else if level = "WARN" then { stack1 with has_warnings := true }
      else stack1
    some (stats2, stack2.append_trace (String.intercalate "\n" lines2))

/-- C5: evaluating `log_message` on a message whose text field is missing (so
the code's own `or ""` default applies) raises `IndexError` instead of
degrading gracefully: `"".splitlines()` is empty and the code indexes its
first element.  The claim (and the spec's error-handling design) is the
intent; the code fails on exactly the degraded value it installs. -/
theorem C5_log_message_empty_crashes :
    logMessageStep false TestStatistics.init TraceStack.init (some "INFO") none
      = none := by
  decide

/-- C6: a single `log_message` call at level ERROR, on any message text with
at least one line (any non-empty text, spanning any number of lines),
increments the statistics error counter by exactly one, sets the active
stack's `has_errors` flag, and leaves the warning counter and flag
unchanged. -/
theorem C6_error_message_counts (colors : Bool) (stats : TestStatistics)
    (stack : TraceStack) (text : String) (h : ¬ text = "") :
    ∃ (stats2 : TestStatistics) (stack2 : TraceStack),
      logMessageStep colors stats stack (some "ERROR") (some text)
        = some (stats2, stack2) ∧
      stats2.errors = stats.errors + 1 ∧
      stack2.has_errors = true ∧
      stats2.warnings = stats.warnings ∧
      stack2.has_warnings = stack.has_warnings := by
  obtain ⟨l0, rest, heq⟩ := List.exists_cons_of_ne_nil (pySplitlines_ne_nil text h)
  simp only [logMessageStep, pyOrStr, h, if_false, if_neg, heq]
  refine ⟨_, _, rfl, ?_, ?_, ?_, ?_⟩ <;>
    simp [TraceStack.append_trace, TraceStack.flush]

/-- C6 witness: a concrete three-line ERROR message on fresh statistics and a
fresh stack. -/
theorem C6_error_message_counts_witness :
    ¬ ("line1\nline2\nline3" : String) = "" ∧
    ∃ (stats2 : TestStatistics) (stack2 : TraceStack),
      logMessageStep false TestStatistics.init TraceStack.init
          (some "ERROR") (some "line1\nline2\nline3") = some (stats2, stack2) ∧
      stats2.errors = TestStatistics.init.errors + 1 ∧
      stack2.has_errors = true ∧
      stats2.warnings = TestStatistics.init.warnings ∧
      stack2.has_warnings = TraceStack.init.has_warnings :=
  ⟨by decide,
   C6_error_message_counts false TestStatistics.init TraceStack.init
     "line1\nline2\nline3" (by decide)⟩

/-- The pure composition step of `CLIProgress._write_progress_line` on
character sequences: compute `max_left` (reserving one separator column when
right text is present, clamped at 0 like Python's `max(0, ...)`), truncate the
left text — with a trailing `...` when at least 3 columns are available for
it, a hard cut otherwise — and join left text, padding spaces and right text.
All lengths are raw `len()` character counts, exactly as in the source. -/
def composeProgressLine (text_width : Nat) (left_text right_text : List Char) : List Char :=
  let right_len := right_text.length
  let max_left : Nat :=
    if 0 < right_len then ((text_width : Int) - (right_len : Int) - 1).toNat
    else text_width
  let left2 :=
    if max_left < left_text.length then
      if 3 ≤ max_left then left_text.take (max_left - 3) ++ ['.', '.', '.']
      else left_text.take max_left
    else left_text
  let padding := ((text_width : Int) - (left2.length : Int) - (right_len : Int)).toNat
  left2 ++ List.replicate padding ' ' ++ right_text

/-- Consume the `[0-9;]*m` tail of an ANSI color sequence, returning the
remaining characters, or `none` when the characters do not complete the
pattern. -/
def ansiSeqRest : List Char → Option (List Char)
  | [] => none
  | c :: rest =>
    if c.isDigit || c = ';' then ansiSeqRest rest
    else if c = 'm' then some rest
    else none

/-- Delete every occurrence of the regex `\033[[0-9;]*m`, scanning left to
right; the fuel argument (instantiated with the list length, which bounds the
number of steps) makes the recursion structural. -/
def stripEscapesAux : Nat → List Char → List Char
  | 0, cs => cs
  | _ + 1, [] => []
  | fuel + 1, c :: rest =>
    if c = '\x1b' then
      match rest with
      | '[' :: r2 =>
        match ansiSeqRest r2 with
        | some r3 => stripEscapesAux fuel r3
        | none => c :: stripEscapesAux fuel rest
      | _ => c :: stripEscapesAux fuel rest
    else c :: stripEscapesAux fuel rest

/-- `ANSI.len`: the visible length of text, i.e. its length after deleting
every recognized color escape sequence. -/
def ansiLen (cs : List Char) : Nat := (stripEscapesAux cs.length cs).length

/-- C4 counterexample: with `text_width = width - 4 = 6` and a colored right
text of 11 raw characters but 2 visible ones, the composed row is the right
text itself: it has 2 visible characters, not 6, and its raw length 11
exceeds the width, so the written row overflows the box. -/
theorem C4_counterexample :
    composeProgressLine 6 ("left".data) ("\x1b[31mAB\x1b[0m".data)
      = ("\x1b[31mAB\x1b[0m".data) ∧
    ¬ ansiLen (composeProgressLine 6 ("left".data) ("\x1b[31mAB\x1b[0m".data)) = 6 ∧
    6 < (composeProgressLine 6 ("left".data) ("\x1b[31mAB\x1b[0m".data)).length := by
  decide

/-- C4 (amended): for every line the box updates, the composed row has
exactly `width - 4` characters by raw count — escape sequences included, so a
colored row can have fewer visible characters — whenever the raw length of
the right text is at most `width - 4`; when the right text is longer than
that, the row is the right text itself and exceeds the width (right text
takes priority and is never truncated).  The remaining conjuncts characterize
the row exactly in every case, so the ellipsis appears only in the two
ellipsis conjuncts, i.e. only when the left text does not fit and at least 3
columns remain for it: when both texts do not fit together and at least 3
columns remain for the left text, the left text is truncated with a trailing
ellipsis (separated from a non-empty right text by one padding space); when
the left text does not fit and fewer than 3 columns remain, it is
hard-truncated to the remaining columns with no ellipsis inserted; and when
the left text fits, it appears unmodified with only padding added. -/
theorem C4_compose_line_amended (tw : Nat) (l r : List Char) :
    (r.length ≤ tw → (composeProgressLine tw l r).length = tw) ∧
    (tw < r.length → composeProgressLine tw l r = r) ∧
    (0 < r.length → r.length + 4 ≤ tw → tw < l.length + r.length + 1 →
      composeProgressLine tw l r
        = l.take (tw - r.length - 4) ++ ['.', '.', '.', ' '] ++ r) ∧
    (0 < r.length → r.length ≤ tw → tw < r.length + 4 → tw - r.length - 1 < l.length →
      composeProgressLine tw l r
        = l.take (tw - r.length - 1) ++ List.replicate (min 1 (tw - r.length)) ' ' ++ r) ∧
    (r = [] → tw < l.length → 3 ≤ tw →
      composeProgressLine tw l r = l.take (tw - 3) ++ ['.', '.', '.']) ∧
    (r = [] → tw < l.length → tw < 3 →
      composeProgressLine tw l r = l.take tw) ∧
    (0 < r.length → l.length + r.length + 1 ≤ tw →
      composeProgressLine tw l r
        = l ++ List.replicate (tw - l.length - r.length) ' ' ++ r) ∧
    (r = [] → l.length ≤ tw →
      composeProgressLine tw l r = l ++ List.replicate (tw - l.length) ' ') := by
  refine ⟨?_, ?_, ?_, ?_, ?_, ?_, ?_, ?_⟩
  · intro hr
    simp only [composeProgressLine]
    split_ifs with h1 h2 h3 <;>
      simp [List.length_append, List.length_take, List.length_replicate] <;> omega
  · intro hr
    simp only [composeProgressLine]
    have hml : ((tw : Int) - (r.length : Int) - 1).toNat = 0 := by omega
    rw [if_pos (by omega : 0 < r.length), hml]
    by_cases hl : 0 < l.length
    · rw [if_pos hl, if_neg (by omega : ¬ 3 ≤ 0)]
      simp
      omega
    · rw [if_neg (by omega : ¬ 0 < l.length)]
      have : l = [] := List.length_eq_zero.mp (by omega)
      subst this
      simp
      omega
  · intro h1 h2 h3
    simp only [composeProgressLine]
    rw [if_pos h1]
    have hml : ((tw : Int) - (r.length : Int) - 1).toNat = tw - r.length - 1 := by omega
    rw [hml]
    rw [if_pos (by omega : tw - r.length - 1 < l.length),
      if_pos (by omega : 3 ≤ tw - r.length - 1)]
    have htake : (l.take (tw - r.length - 1 - 3)).length = tw - r.length - 4 := by
      simp [List.length_take]; omega
    have hpad : (((tw : Int) - ((l.take (tw - r.length - 1 - 3)
        ++ ['.', '.', '.']).length : Int) - (r.length : Int))).toNat = 1 := by
      simp [List.length_append, htake]
      omega
    rw [hpad]
    have harg : tw - r.length - 1 - 3 = tw - r.length - 4 := by omega
    rw [harg]
    simp
  · intro h1 h2 h3 h4
    simp only [composeProgressLine]
    rw [if_pos h1]
    have hml : ((tw : Int) - (r.length : Int) - 1).toNat = tw - r.length - 1 := by omega
    rw [hml, if_pos h4, if_neg (by omega : ¬ 3 ≤ tw - r.length - 1)]
    have hpad : (((tw : Int) - ((l.take (tw - r.length - 1)).length : Int)
        - (r.length : Int))).toNat = min 1 (tw - r.length) := by
      simp [List.length_take]
      omega
    rw [hpad]
  · intro h1 h2 h3
    subst h1
    simp only [composeProgressLine, List.length_nil]
    rw [if_neg (by omega : ¬ (0 : Nat) < 0), if_pos h2, if_pos h3]
    have hpad : (((tw : Int) - ((l.take (tw - 3) ++ ['.', '.', '.']).length : Int)
        - ((0 : Nat) : Int))).toNat = 0 := by
      simp [List.length_append, List.length_take]
      omega
    rw [hpad]
    simp
  · intro h1 h2 h3
    subst h1
    simp only [composeProgressLine, List.length_nil]
    rw [if_neg (by omega : ¬ (0 : Nat) < 0), if_pos h2, if_neg (by omega : ¬ 3 ≤ tw)]
    have hpad : (((tw : Int) - ((l.take tw).length : Int) - ((0 : Nat) : Int))).toNat
        = 0 := by
      simp [List.length_take]
      omega
    rw [hpad]
    simp
  · intro h1 h2
    simp only [composeProgressLine]
    rw [if_pos h1]
    have hml : ((tw : Int) - (r.length : Int) - 1).toNat = tw - r.length - 1 := by omega
    rw [hml, if_neg (by omega : ¬ tw - r.length - 1 < l.length)]
    have hpad : (((tw : Int) - (l.length : Int) - (r.length : Int))).toNat
        = tw - l.length - r.length := by omega
    rw [hpad]
  · intro h1 h2
    subst h1
    simp only [composeProgressLine, List.length_nil]
    rw [if_neg (by omega : ¬ (0 : Nat) < 0), if_neg (by omega : ¬ tw < l.length)]
    have hpad : (((tw : Int) - (l.length : Int) - ((0 : Nat) : Int))).toNat
        = tw - l.length := by omega
    rw [hpad]
    simp

/-- C4 witness: with `text_width = 10`, a 12-character left text and a
3-character right text, the row has exactly 10 characters and shows the
ellipsis-truncated left text, one padding space, and the right text; with
`text_width = 6` and a 4-character right text, only one column remains for
the left text, which is hard-truncated with no ellipsis, giving the row
`"a wxyz"`. -/
theorem C4_compose_line_witness :
    (composeProgressLine 10 ("abcdefghijkl".data) ("xyz".data)).length = 10 ∧
    composeProgressLine 10 ("abcdefghijkl".data) ("xyz".data)
      = ("abcdefghijkl".data).take 3 ++ ['.', '.', '.', ' '] ++ ("xyz".data) ∧
    composeProgressLine 6 ("abcdef".data) ("wxyz".data)
      = ("abcdef".data).take (6 - ("wxyz".data).length - 1)
        ++ List.replicate (min 1 (6 - ("wxyz".data).length)) ' ' ++ ("wxyz".data) ∧
    composeProgressLine 6 ("abcdef".data) ("wxyz".data) = ("a wxyz".data) :=
  ⟨(C4_compose_line_amended 10 ("abcdefghijkl".data) ("xyz".data)).1 (by decide),
   (C4_compose_line_amended 10 ("abcdefghijkl".data) ("xyz".data)).2.2.1
     (by decide) (by decide) (by decide),
   (C4_compose_line_amended 6 ("abcdef".data) ("wxyz".data)).2.2.2.1
     (by decide) (by decide) (by decide) (by decide),
   by decide⟩
